import Mathlib

/-!
Shallow embedding of the vmstat_graph program (a Python 2 script that parses
textual vmstat output and plots selected columns).

Modelling conventions:
* Python integers are `Int`; Python 2 integer division on `Int` is floor
  division, modelled by `Int.fdiv`.
* Uncaught Python exceptions (IndexError, ValueError, KeyError) are `none`
  of an `Option`, or an explicit result constructor where two different
  termination behaviours must be told apart.
* `datetime` values are modelled as seconds since the Unix epoch; the fixed
  epoch `datetime(2016, 1, 1, 0, 0)` is the constant `vmstat_epoch`.
* Python dicts are association lists with unique keys; dict assignment
  replaces the value of an existing key in place and appends a fresh key at
  the end, exactly as insertion-ordered Python dicts behave.
-/

namespace VmstatGraph

/-- Tokenizer for one input line: Python `str.split()` with no argument
splits on runs of whitespace and produces no empty tokens.  Recursion over
the character list, accumulating the current token in reverse. -/
def tokenizeAux : List Char → List Char → List String
  | [], cur => if cur = [] then [] else [String.mk cur.reverse]
  | c :: cs, cur =>
    if c.isWhitespace then
      if cur = [] then tokenizeAux cs []
      else String.mk cur.reverse :: tokenizeAux cs []
    else tokenizeAux cs (c :: cur)

/-- The expression `line.split()` from the source, on one line given as a string. -/
def splitLine (s : String) : List String := tokenizeAux s.data []

/-- Digit-string accumulator: value of a decimal digit list, `none` if any
character is not a digit.  An empty list yields the accumulator. -/
def digitsValAux : List Char → Nat → Option Nat
  | [], acc => some acc
  | c :: cs, acc =>
    if c.isDigit then digitsValAux cs (acc * 10 + (c.toNat - 48)) else none

/-- Python `int(...)` on a token given as a character list: an optional
sign followed by at least one decimal digit; anything else raises
ValueError, modelled as `none`. -/
def pyIntChars : List Char → Option Int
  | [] => none
  | '-' :: cs =>
    if cs = [] then none else (digitsValAux cs 0).map (fun n => -(n : Int))
  | '+' :: cs =>
    if cs = [] then none else (digitsValAux cs 0).map (fun n => (n : Int))
  | cs => (digitsValAux cs 0).map (fun n => (n : Int))

/-- Python `int(...)` on a string. -/
def pyInt (s : String) : Option Int := pyIntChars s.data

/-- The `HUMAN_HEADERS` table from the source, as an ordered dict. -/
def HUMAN_HEADERS : List (String × String) :=
  [("r", "Runnable processes"),
   ("b", "Blocked processes"),
   ("swpd", "Swapped memory"),
   ("free", "Free memory"),
   ("buff", "I/O Buffers"),
   ("cache", "FS cache"),
   ("si", "Swapins"),
   ("so", "Swapouts"),
   ("bi", "I/O buffers in (reads)"),
   ("bo", "I/O buffers out (writes)"),
   ("in", "Interrupts"),
   ("cs", "Context switches"),
   ("us", "Userspace CPU %"),
   ("sy", "Kernel CPU %"),
   ("id", "Idle CPU %"),
   ("wa", "I/O wait CPU %"),
   ("st", "Stolen VM CPU %")]

/-- The function `normalize(dataset, total)` from the source:
`[d * 100 / total for d in dataset]`, with Python 2 floor division. -/
def normalize (dataset : List Int) (total : Int) : List Int :=
  dataset.map (fun d => Int.fdiv (d * 100) total)

/-- Loop body of `read_input`: walk the lines keeping the headers found so
far and the accumulated data rows.  A line with no tokens makes `elems[0]`
raise IndexError, modelled as `none`. -/
def read_input_go :
    List String → Option (List String) → List (List String) →
      Option (Option (List String) × List (List String))
  | [], headers, data => some (headers, data)
  | line :: rest, headers, data =>
    match splitLine line with
    | [] => none
    | e :: es =>
      if e = "procs" then read_input_go rest headers data
      else if e = "r" then
        match headers with
        | none => read_input_go rest (some (e :: es)) data
        | some h => read_input_go rest (some h) data
      else read_input_go rest headers (data ++ [e :: es])

/-- The function `read_input(fin)` from the source, on the list of input lines. -/
def read_input (lines : List String) :
    Option (Option (List String) × List (List String)) :=
  read_input_go lines none []

/-- Python dict assignment `d[k] = v` on an insertion-ordered association
list: replace the value in place when the key is present, append otherwise. -/
def dictInsert {α : Type} (d : List (String × α)) (k : String) (v : α) :
    List (String × α) :=
  if d.any (fun p => p.1 = k) then
    d.map (fun p => if p.1 = k then (k, v) else p)
  else d ++ [(k, v)]

/-- One column of the dataset: `[int(dataline[idx]) for dataline in data]`.
A short row raises IndexError and a non-numeric token raises ValueError,
both modelled as `none`. -/
def column (data : List (List String)) (idx : Nat) : Option (List Int) :=
  data.mapM (fun row => (row.get? idx).bind pyInt)

/-- The dict comprehension from `doit` that rearranges data columns into
rows: `{header: [int(dataline[idx]) for dataline in data]
for idx, header in enumerate(headers)}`. -/
def mkDataset (headers : List String) (data : List (List String)) :
    Option (List (String × List Int)) :=
  headers.enum.foldlM
    (fun d p => (column data p.1).map (fun c => dictInsert d p.2 c)) []

/-- Positional description of column materialization, following the words
of the specification: one integer sequence per header position, the
sequence for position `i` holding the parsed token at position `i` of each
row in order.  Stated separately from `mkDataset` so the two can be
compared. -/
def columns_spec (headers : List String) (data : List (List String)) :
    Option (List (String × List Int)) :=
  headers.enum.mapM (fun p => (column data p.1).map (fun c => (p.2, c)))

/-- The four memory-family column names normalized by `doit`. -/
def memcols : List String := ["free", "buff", "cache", "swpd"]

/-- The statement `HUMAN_HEADERS[h] += suffix`: a dict read (KeyError when
absent) followed by dict assignment of the suffixed text. -/
def label_add (ls : List (String × String)) (k : String) (suf : String) :
    Option (List (String × String)) :=
  (List.lookup k ls).map (fun t => dictInsert ls k (t ++ suf))

/-- One iteration of the normalization loop in `doit` when a reference size
is given: `dataset[header] = normalize(dataset[header], ram)` followed by
`HUMAN_HEADERS[header] += " %"`. -/
def norm_step (r : Int)
    (st : List (String × List Int) × List (String × String)) (h : String) :
    Option (List (String × List Int) × List (String × String)) :=
  match List.lookup h st.1, List.lookup h st.2 with
  | some col, some t =>
    some (dictInsert st.1 h (normalize col r), dictInsert st.2 h (t ++ " %"))
  | _, _ => none

/-- One iteration of the labelling loop in `doit` when no reference size is
given: `HUMAN_HEADERS[header] += " (MB)"`. -/
def mb_step (ls : List (String × String)) (h : String) :
    Option (List (String × String)) :=
  label_add ls h " (MB)"

/-- The block `if ram: ... else: ...` of `doit`: with a truthy `ram`,
normalize the four memory columns and annotate their labels with a percent
suffix; with `ram` absent or zero, leave the data alone and annotate the
labels with an absolute-unit suffix. -/
def apply_ram (dataset : List (String × List Int))
    (ls : List (String × String)) (ram : Option Int) :
    Option (List (String × List Int) × List (String × String)) :=
  match ram with
  | some r =>
    if r = 0 then (memcols.foldlM mb_step ls).map (fun l => (dataset, l))
    else memcols.foldlM (norm_step r) (dataset, ls)
  | none => (memcols.foldlM mb_step ls).map (fun l => (dataset, l))

/-- The fixed epoch `datetime.datetime(2016, 1, 1, 0, 0)` as seconds since the Unix epoch. -/
def vmstat_epoch : Int := 1451606400

/-- The time-axis block of `doit`: `timeaxis = range(len(data))`, replaced
when `interval` is a truthy string by timestamps
`epoch + timedelta(seconds = x * int(interval))`.  A non-numeric interval
string makes `int(interval)` raise, modelled as `none`. -/
def timeaxis_of (ndata : Nat) : Option String → Option (List Int)
  | none => some ((List.range ndata).map (fun i => (i : Int)))
  | some s =>
    if s = "" then some ((List.range ndata).map (fun i => (i : Int)))
    else (pyInt s).map
      (fun k => (List.range ndata).map (fun x => vmstat_epoch + (x : Int) * k))

/-- The statement `if not cols: cols = headers` from `doit`: an absent or
empty column list selects every header column. -/
def effective_cols (cols : Option (List String)) (headers : List String) :
    List String :=
  match cols with
  | none => headers
  | some [] => headers
  | some cs => cs

/-- The selector from `doit`: `{h: dataset[h] for h in cols}`.  A requested
name missing from the dataset raises KeyError, modelled as `none`. -/
def select (dataset : List (String × List Int)) (cols : List String) :
    Option (List (String × List Int)) :=
  cols.foldlM
    (fun d h => (List.lookup h dataset).map (fun v => dictInsert d h v)) []

/-- Outcome of the reference-size parsing block in `main`: a parsed byte
count, the usage-message-and-exit path, or an uncaught IndexError. -/
inductive RamResult : Type
  | ok (n : Int)
  | usage_exit
  | index_error
deriving DecidableEq, Repr

/-- Scale a parsed prefix by a unit multiplier; a prefix that fails to
parse falls through to the usage-and-exit path. -/
def ramRes : Option Int → Int → RamResult
  | some n, m => RamResult.ok (n * m)
  | none, _ => RamResult.usage_exit

/-- The reference-size parsing block of `main`, for a non-empty `args.ram`:
try `int(args.ram)`; on ValueError strip a trailing `B` or `o`, then map a
trailing K/M/G (either case) to its multiplier, else retry with the last
character dropped; a second ValueError prints usage and exits non-zero. -/
def parse_ram (s : String) : RamResult :=
  match pyInt s with
  | some n => RamResult.ok n
  | none =>
    let s1 : String :=
      match s.data.getLast? with
      | some c => if c = 'B' ∨ c = 'o' then String.mk s.data.dropLast else s
      | none => s
    match s1.data.getLast? with
    | none => RamResult.index_error
    | some c =>
      let p : String := String.mk s1.data.dropLast
      if c = 'K' ∨ c = 'k' then ramRes (pyInt p) 1024
      else if c = 'M' ∨ c = 'm' then ramRes (pyInt p) (1024 * 1024)
      else if c = 'G' ∨ c = 'g' then ramRes (pyInt p) (1024 * 1024 * 1024)
      else ramRes (pyInt p) 1

/-- The whole `ram` computation of `main`: `None` when the argument is
absent or empty, otherwise the parsed byte count divided by 1024 when it is
truthy (`if ram: ram /= 1024`).  `none` models any terminating failure. -/
def main_ram : Option String → Option (Option Int)
  | none => some none
  | some s =>
    if s = "" then some none
    else
      match parse_ram s with
      | RamResult.ok n =>
        some (some (if n = 0 then (0 : Int) else Int.fdiv n 1024))
      | _ => none

/-- Index of the first line whose first token is the header name `r`. -/
def first_r (lines : List String) : Option Nat :=
  lines.findIdx? (fun l => (splitLine l).head? == some "r")

/-- Claim C2 as stated, as a predicate on one input: every line strictly
after the first header line whose first token is not the sentinel `procs`
appears, tokenized, among the returned data rows. -/
def read_input_claim (lines : List String) : Prop :=
  ∀ i, first_r lines = some i →
    ∀ j l, i < j → lines.get? j = some l →
      (splitLine l).head? ≠ some "procs" →
      ∀ hdr data, read_input lines = some (hdr, data) → splitLine l ∈ data

/-- The header actually captured by `read_input`: the token tuple of the
first line whose first token is `r`. -/
def hdr_of (lines : List String) : Option (List String) :=
  (lines.map splitLine).find? (fun t => t.head? == some "r")

/-- The data rows actually returned by `read_input`: the token tuples of
every line whose first token is neither `procs` nor `r`, in order. -/
def data_of (lines : List String) : List (List String) :=
  (lines.map splitLine).filter
    (fun t => !(t.head? == some "procs") && !(t.head? == some "r"))

/-! Helper lemmas about dict operations. -/

theorem lookup_map_replace_self {α : Type} (k : String) (v : α) :
    ∀ (d : List (String × α)), d.any (fun p => p.1 = k) = true →
      List.lookup k (d.map (fun p => if p.1 = k then (k, v) else p)) = some v := by
  intro d
  induction d with
  | nil => intro h; simp at h
  | cons p t ih =>
    obtain ⟨pk, pv⟩ := p
    intro h
    by_cases hp : pk = k
    · subst hp
      simp [List.lookup_cons]
    · have ht : t.any (fun p => p.1 = k) = true := by
        simp only [List.any_cons, decide_eq_true_eq, Bool.or_eq_true] at h
        rcases h with h | h
        · exact absurd h hp
        · exact h
      simp only [List.map_cons]
      rw [if_neg hp]
      rw [List.lookup_cons]
      rw [beq_false_of_ne (Ne.symm hp)]
      exact ih ht

theorem lookup_map_replace_ne {α : Type} (k k2 : String) (v : α) (hne : k2 ≠ k) :
    ∀ (d : List (String × α)),
      List.lookup k2 (d.map (fun p => if p.1 = k then (k, v) else p)) =
        List.lookup k2 d := by
  intro d
  induction d with
  | nil => rfl
  | cons p t ih =>
    obtain ⟨pk, pv⟩ := p
    by_cases hp : pk = k
    · subst hp
      simp only [List.map_cons]
      simp only [if_true]
      rw [List.lookup_cons, List.lookup_cons]
      simp only [beq_false_of_ne hne]
      exact ih
    · simp only [List.map_cons]
      rw [if_neg hp]
      rw [List.lookup_cons, List.lookup_cons]
      cases hq : (k2 == pk) with
      | true => rfl
      | false => exact ih

theorem lookup_append_single_self {α : Type} (k : String) (v : α) :
    ∀ (d : List (String × α)), d.any (fun p => p.1 = k) = false →
      List.lookup k (d ++ [(k, v)]) = some v := by
  intro d
  induction d with
  | nil => intro _; simp [List.lookup_cons]
  | cons p t ih =>
    obtain ⟨pk, pv⟩ := p
    intro h
    simp only [List.any_cons, Bool.or_eq_false_iff, decide_eq_false_iff_not] at h
    simp only [List.cons_append]
    rw [List.lookup_cons]
    rw [beq_false_of_ne (Ne.symm h.1)]
    exact ih (by simpa using h.2)

theorem lookup_append_single_ne {α : Type} (k k2 : String) (v : α) (hne : k2 ≠ k) :
    ∀ (d : List (String × α)),
      List.lookup k2 (d ++ [(k, v)]) = List.lookup k2 d := by
  intro d
  induction d with
  | nil =>
    simp only [List.nil_append]
    rw [List.lookup_cons, beq_false_of_ne hne]
  | cons p t ih =>
    obtain ⟨pk, pv⟩ := p
    simp only [List.cons_append]
    rw [List.lookup_cons, List.lookup_cons]
    cases hq : (k2 == pk) with
    | true => rfl
    | false => exact ih

theorem lookup_dictInsert_self {α : Type} (d : List (String × α)) (k : String)
    (v : α) : List.lookup k (dictInsert d k v) = some v := by
  unfold dictInsert
  cases h : d.any (fun p => p.1 = k) with
  | true => simpa [h] using lookup_map_replace_self k v d h
  | false => simpa [h] using lookup_append_single_self k v d h

theorem lookup_dictInsert_ne {α : Type} (d : List (String × α)) (k k2 : String)
    (v : α) (hne : k2 ≠ k) :
    List.lookup k2 (dictInsert d k v) = List.lookup k2 d := by
  unfold dictInsert
  cases h : d.any (fun p => p.1 = k) with
  | true => simpa [h] using lookup_map_replace_ne k k2 v hne d
  | false => simpa [h] using lookup_append_single_ne k k2 v hne d

theorem dictInsert_of_forall_ne {α : Type} (d : List (String × α)) (k : String)
    (v : α) (h : ∀ p ∈ d, p.1 ≠ k) : dictInsert d k v = d ++ [(k, v)] := by
  unfold dictInsert
  rw [if_neg]
  simp only [List.any_eq_true, decide_eq_true_eq, not_exists, not_and]
  exact h

/-! Helper lemmas about the selector fold. -/

theorem select_fold_spec (dataset : List (String × List Int)) :
    ∀ (cols : List String) (d0 : List (String × List Int)),
      (∀ h ∈ cols, (List.lookup h dataset).isSome) →
      ∃ out,
        cols.foldlM
          (fun d h => (List.lookup h dataset).map (fun v => dictInsert d h v))
          d0 = some out ∧
        ∀ h2, List.lookup h2 out =
          if h2 ∈ cols then List.lookup h2 dataset else List.lookup h2 d0 := by
  intro cols
  induction cols with
  | nil =>
    intro d0 _
    exact ⟨d0, rfl, fun h2 => by simp⟩
  | cons c rest ih =>
    intro d0 hall
    obtain ⟨v, hv⟩ := Option.isSome_iff_exists.mp (hall c (by simp))
    obtain ⟨out, hout, hspec⟩ :=
      ih (dictInsert d0 c v) (fun h hh => hall h (by simp [hh]))
    refine ⟨out, ?_, ?_⟩
    · rw [List.foldlM_cons, hv]
      simpa using hout
    · intro h2
      rw [hspec h2]
      by_cases h2r : h2 ∈ rest
      · simp [h2r]
      · by_cases h2c : h2 = c
        · subst h2c
          rw [if_neg h2r, if_pos (by simp)]
          rw [lookup_dictInsert_self, hv]
        · rw [if_neg h2r, if_neg (by simp [h2c, h2r])]
          exact lookup_dictInsert_ne d0 c h2 v h2c

theorem select_fold_none (dataset : List (String × List Int)) :
    ∀ (cols : List String) (d0 : List (String × List Int)) (h : String),
      h ∈ cols → List.lookup h dataset = none →
      cols.foldlM
        (fun d h => (List.lookup h dataset).map (fun v => dictInsert d h v))
        d0 = none := by
  intro cols
  induction cols with
  | nil => intro d0 h hh; simp at hh
  | cons c rest ih =>
    intro d0 h hh hnone
    rw [List.foldlM_cons]
    cases hc : List.lookup c dataset with
    | none => simp [hc]
    | some v =>
      have hmem : h ∈ rest := by
        rcases List.mem_cons.mp hh with h1 | h1
        · subst h1; rw [hnone] at hc; cases hc
        · exact h1
      simpa using ih (dictInsert d0 c v) h hmem hnone

/-! Helper lemmas about the reader. -/

theorem read_input_go_spec :
    ∀ (lines : List String) (hdr : Option (List String))
      (acc : List (List String)),
      (∀ l ∈ lines, splitLine l ≠ []) →
      read_input_go lines hdr acc =
        some ((match hdr with | some h => some h | none => hdr_of lines),
          acc ++ data_of lines) := by
  intro lines
  induction lines with
  | nil =>
    intro hdr acc _
    cases hdr <;> simp [read_input_go, hdr_of, data_of]
  | cons l rest ih =>
    intro hdr acc hne
    have hl : splitLine l ≠ [] := hne l (by simp)
    obtain ⟨e, es, hsplit⟩ : ∃ e es, splitLine l = e :: es := by
      cases hs : splitLine l with
      | nil => exact absurd hs hl
      | cons e es => exact ⟨e, es, rfl⟩
    have hrest : ∀ l2 ∈ rest, splitLine l2 ≠ [] :=
      fun l2 h2 => hne l2 (by simp [h2])
    have hmap : (l :: rest).map splitLine = (e :: es) :: rest.map splitLine := by
      rw [List.map_cons, hsplit]
    by_cases hp : e = "procs"
    · subst hp
      have h1 : hdr_of (l :: rest) = hdr_of rest := by
        rw [hdr_of, hmap, List.find?_cons]
        rfl
      have h2 : data_of (l :: rest) = data_of rest := by
        rw [data_of, hmap, List.filter_cons]
        rfl
      simp only [read_input_go, hsplit, if_pos rfl]
      rw [h1, h2]
      exact ih hdr acc hrest
    · by_cases hr : e = "r"
      · subst hr
        have h1 : hdr_of (l :: rest) = some ("r" :: es) := by
          rw [hdr_of, hmap, List.find?_cons]
          rfl
        have h2 : data_of (l :: rest) = data_of rest := by
          rw [data_of, hmap, List.filter_cons]
          rfl
        simp only [read_input_go, hsplit, if_true]
        cases hdr with
        | none =>
          rw [h1, h2]
          exact ih (some ("r" :: es)) acc hrest
        | some h =>
          rw [h2]
          exact ih (some h) acc hrest
      · have hbr : ((some e : Option String) == some "r") = false :=
          beq_false_of_ne (by simp [hr])
        have hbp : ((some e : Option String) == some "procs") = false :=
          beq_false_of_ne (by simp [hp])
        have h1 : hdr_of (l :: rest) = hdr_of rest := by
          rw [hdr_of, hmap, List.find?_cons]
          simp only [List.head?_cons, hbr]
          rfl
        have h2 : data_of (l :: rest) = (e :: es) :: data_of rest := by
          rw [data_of, hmap, List.filter_cons]
          simp only [List.head?_cons, hbr, hbp]
          rfl
        simp only [read_input_go, hsplit]
        rw [if_neg hp, if_neg hr]
        rw [h1, h2]
        rw [ih hdr (acc ++ [e :: es]) hrest]
        simp [List.append_assoc]

theorem read_input_go_none_iff :
    ∀ (lines : List String) (hdr : Option (List String))
      (acc : List (List String)),
      read_input_go lines hdr acc = none ↔ ∃ l ∈ lines, splitLine l = [] := by
  intro lines
  induction lines with
  | nil => intro hdr acc; simp [read_input_go]
  | cons l rest ih =>
    intro hdr acc
    cases hsplit : splitLine l with
    | nil =>
      exact iff_of_true (by simp only [read_input_go, hsplit])
        ⟨l, by simp, hsplit⟩
    | cons e es =>
      have hne : splitLine l ≠ [] := by rw [hsplit]; simp
      have hmem : (∃ l2 ∈ l :: rest, splitLine l2 = []) ↔
          ∃ l2 ∈ rest, splitLine l2 = [] := by
        constructor
        · rintro ⟨l2, hl2, hl2e⟩
          rcases List.mem_cons.mp hl2 with h | h
          · subst h; exact absurd hl2e hne
          · exact ⟨l2, h, hl2e⟩
        · rintro ⟨l2, hl2, hl2e⟩
          exact ⟨l2, by simp [hl2], hl2e⟩
      rw [hmem]
      simp only [read_input_go, hsplit]
      by_cases hp : e = "procs"
      · rw [if_pos hp]
        exact ih hdr acc
      · rw [if_neg hp]
        by_cases hr : e = "r"
        · rw [if_pos hr]
          cases hdr with
          | none => exact ih (some (e :: es)) acc
          | some h => exact ih (some h) acc
        · rw [if_neg hr]
          exact ih hdr (acc ++ [e :: es])

/-! Helper lemmas about the dataset construction fold. -/

theorem foldlM_dictInsert_eq_mapM (f : Nat → Option (List Int)) :
    ∀ (ps : List (Nat × String)) (d : List (String × List Int)),
      (ps.map Prod.snd).Nodup →
      (∀ p ∈ ps, ∀ q ∈ d, q.1 ≠ p.2) →
      ps.foldlM (fun d p => (f p.1).map (fun c => dictInsert d p.2 c)) d =
        (ps.mapM (fun p => (f p.1).map (fun c => (p.2, c)))).map
          (fun l => d ++ l) := by
  intro ps
  induction ps with
  | nil =>
    intro d _ _
    show some d = Option.map (fun l => d ++ l) (some [])
    rw [Option.map_some', List.append_nil]
  | cons p rest ih =>
    intro d hnd hdisj
    rw [List.foldlM_cons, List.mapM_cons]
    cases hf : f p.1 with
    | none => rfl
    | some c =>
      have hins : dictInsert d p.2 c = d ++ [(p.2, c)] :=
        dictInsert_of_forall_ne d p.2 c (fun q hq => hdisj p (by simp) q hq)
      have hnotin : p.2 ∉ rest.map Prod.snd := by
        rw [List.map_cons] at hnd
        exact (List.nodup_cons.mp hnd).1
      have hnd2 : (rest.map Prod.snd).Nodup := by
        rw [List.map_cons] at hnd
        exact (List.nodup_cons.mp hnd).2
      have hdisj2 : ∀ p2 ∈ rest, ∀ q ∈ d ++ [(p.2, c)], q.1 ≠ p2.2 := by
        intro p2 hp2 q hq
        rcases List.mem_append.mp hq with h | h
        · exact hdisj p2 (by simp [hp2]) q h
        · have hqe : q = (p.2, c) := by simpa using h
          subst hqe
          intro heq
          exact hnotin (List.mem_map.mpr ⟨p2, hp2, heq.symm⟩)
      have hrec := ih (d ++ [(p.2, c)]) hnd2 hdisj2
      have hstep : (Option.map (fun c0 => dictInsert d p.2 c0) (some c) :
          Option (List (String × List Int))) = some (d ++ [(p.2, c)]) := by
        rw [Option.map_some', hins]
      rw [hstep]
      show List.foldlM
          (fun d p => (f p.1).map (fun c => dictInsert d p.2 c))
          (d ++ [(p.2, c)]) rest = _
      rw [hrec]
      cases hm : rest.mapM (fun p => (f p.1).map (fun c => (p.2, c))) with
      | none => rfl
      | some lres =>
        show some ((d ++ [(p.2, c)]) ++ lres) = _
        simp [List.append_assoc]

theorem mapM_isSome {α β : Type} (g : α → Option β) :
    ∀ l : List α, (∀ a ∈ l, (g a).isSome) → (l.mapM g).isSome := by
  intro l
  induction l with
  | nil => intro _; rfl
  | cons a rest ih =>
    intro hall
    obtain ⟨b, hb⟩ := Option.isSome_iff_exists.mp (hall a (by simp))
    obtain ⟨lb, hlb⟩ :=
      Option.isSome_iff_exists.mp (ih (fun x hx => hall x (by simp [hx])))
    rw [List.mapM_cons, hb, hlb]
    rfl

theorem mapM_congr {α β : Type} (f g : α → Option β) (l : List α)
    (h : ∀ a ∈ l, f a = g a) : l.mapM f = l.mapM g := by
  induction l with
  | nil => rfl
  | cons a rest ih =>
    rw [List.mapM_cons, List.mapM_cons, h a (by simp),
      ih (fun x hx => h x (by simp [hx]))]

theorem mapM_some_map {α β : Type} (g : α → β) :
    ∀ l : List α, l.mapM (fun a => some (g a)) = some (l.map g) := by
  intro l
  induction l with
  | nil => rfl
  | cons a rest ih => rw [List.mapM_cons, ih]; rfl

theorem mkDataset_eq_columns_spec (headers : List String)
    (data : List (List String)) (hnd : headers.Nodup) :
    mkDataset headers data = columns_spec headers data := by
  unfold mkDataset columns_spec
  rw [foldlM_dictInsert_eq_mapM (column data) headers.enum []
    (by rw [List.enum_map_snd]; exact hnd) (by intro p _ q hq; simp at hq)]
  cases hm : headers.enum.mapM
      (fun p => (column data p.1).map (fun c => (p.2, c))) with
  | none => rfl
  | some l => rw [Option.map_some', List.nil_append]

theorem columns_spec_isSome (headers : List String) (data : List (List String))
    (hlen : ∀ row ∈ data, row.length = headers.length)
    (hnum : ∀ row ∈ data, ∀ t ∈ row, (pyInt t).isSome) :
    (columns_spec headers data).isSome := by
  unfold columns_spec
  apply mapM_isSome
  intro p hp
  have h1 : p.1 < headers.length := by
    have hg := List.mem_enum_iff_getElem?.mp hp
    exact (List.getElem?_eq_some.mp hg).1
  have hcol : (column data p.1).isSome := by
    unfold column
    apply mapM_isSome
    intro row hrow
    have h2 : p.1 < row.length := by rw [hlen row hrow]; exact h1
    rw [List.get?_eq_getElem?, List.getElem?_eq_getElem h2]
    rw [Option.some_bind]
    exact hnum row hrow _ (List.getElem_mem h2)
  obtain ⟨c, hc⟩ := Option.isSome_iff_exists.mp hcol
  rw [hc, Option.map_some']
  rfl

/-! Helper lemmas evaluating the normalization block of doit. -/

theorem norm_step_eval (r : Int) (d : List (String × List Int))
    (ls : List (String × String)) (h : String) (col : List Int) (t : String)
    (hd : List.lookup h d = some col) (hl : List.lookup h ls = some t) :
    norm_step r (d, ls) h =
      some (dictInsert d h (normalize col r), dictInsert ls h (t ++ " %")) := by
  simp only [norm_step, hd, hl]

theorem mb_step_eval (ls : List (String × String)) (h : String) (t : String)
    (hl : List.lookup h ls = some t) :
    mb_step ls h = some (dictInsert ls h (t ++ " (MB)")) := by
  simp only [mb_step, label_add, hl, Option.map_some']

theorem apply_ram_pos_eval (d : List (String × List Int))
    (ls : List (String × String)) (R : Int)
    (cf cb cc cs2 : List Int) (tf tb tc ts2 : String)
    (hRnz : R ≠ 0)
    (hdf : List.lookup "free" d = some cf)
    (hdb : List.lookup "buff" d = some cb)
    (hdc : List.lookup "cache" d = some cc)
    (hds : List.lookup "swpd" d = some cs2)
    (hlf : List.lookup "free" ls = some tf)
    (hlb : List.lookup "buff" ls = some tb)
    (hlc : List.lookup "cache" ls = some tc)
    (hls : List.lookup "swpd" ls = some ts2) :
    apply_ram d ls (some R) =
      some
        (dictInsert
          (dictInsert
            (dictInsert (dictInsert d "free" (normalize cf R)) "buff"
              (normalize cb R)) "cache" (normalize cc R)) "swpd"
          (normalize cs2 R),
         dictInsert
          (dictInsert
            (dictInsert (dictInsert ls "free" (tf ++ " %")) "buff"
              (tb ++ " %")) "cache" (tc ++ " %")) "swpd" (ts2 ++ " %")) := by
  have e1 := norm_step_eval R d ls "free" cf tf hdf hlf
  have hdb1 : List.lookup "buff" (dictInsert d "free" (normalize cf R)) =
      some cb := by
    rw [lookup_dictInsert_ne _ _ _ _ (by decide)]; exact hdb
  have hlb1 : List.lookup "buff" (dictInsert ls "free" (tf ++ " %")) =
      some tb := by
    rw [lookup_dictInsert_ne _ _ _ _ (by decide)]; exact hlb
  have e2 := norm_step_eval R _ _ "buff" cb tb hdb1 hlb1
  have hdc2 : List.lookup "cache"
      (dictInsert (dictInsert d "free" (normalize cf R)) "buff"
        (normalize cb R)) = some cc := by
    rw [lookup_dictInsert_ne _ _ _ _ (by decide),
      lookup_dictInsert_ne _ _ _ _ (by decide)]
    exact hdc
  have hlc2 : List.lookup "cache"
      (dictInsert (dictInsert ls "free" (tf ++ " %")) "buff" (tb ++ " %")) =
      some tc := by
    rw [lookup_dictInsert_ne _ _ _ _ (by decide),
      lookup_dictInsert_ne _ _ _ _ (by decide)]
    exact hlc
  have e3 := norm_step_eval R _ _ "cache" cc tc hdc2 hlc2
  have hds3 : List.lookup "swpd"
      (dictInsert
        (dictInsert (dictInsert d "free" (normalize cf R)) "buff"
          (normalize cb R)) "cache" (normalize cc R)) = some cs2 := by
    rw [lookup_dictInsert_ne _ _ _ _ (by decide),
      lookup_dictInsert_ne _ _ _ _ (by decide),
      lookup_dictInsert_ne _ _ _ _ (by decide)]
    exact hds
  have hls3 : List.lookup "swpd"
      (dictInsert
        (dictInsert (dictInsert ls "free" (tf ++ " %")) "buff"
          (tb ++ " %")) "cache" (tc ++ " %")) = some ts2 := by
    rw [lookup_dictInsert_ne _ _ _ _ (by decide),
      lookup_dictInsert_ne _ _ _ _ (by decide),
      lookup_dictInsert_ne _ _ _ _ (by decide)]
    exact hls
  have e4 := norm_step_eval R _ _ "swpd" cs2 ts2 hds3 hls3
  simp only [apply_ram, if_neg hRnz]
  simp only [memcols, List.foldlM, e1, e2, e3, e4, Option.bind_eq_bind,
    Option.some_bind, Option.pure_def]

theorem apply_ram_mb_eval (d : List (String × List Int))
    (ls : List (String × String)) (tf tb tc ts2 : String)
    (hlf : List.lookup "free" ls = some tf)
    (hlb : List.lookup "buff" ls = some tb)
    (hlc : List.lookup "cache" ls = some tc)
    (hls : List.lookup "swpd" ls = some ts2) :
    apply_ram d ls none =
      some (d,
        dictInsert
          (dictInsert
            (dictInsert (dictInsert ls "free" (tf ++ " (MB)")) "buff"
              (tb ++ " (MB)")) "cache" (tc ++ " (MB)")) "swpd"
          (ts2 ++ " (MB)")) := by
  have e1 := mb_step_eval ls "free" tf hlf
  have hlb1 : List.lookup "buff" (dictInsert ls "free" (tf ++ " (MB)")) =
      some tb := by
    rw [lookup_dictInsert_ne _ _ _ _ (by decide)]; exact hlb
  have e2 := mb_step_eval _ "buff" tb hlb1
  have hlc2 : List.lookup "cache"
      (dictInsert (dictInsert ls "free" (tf ++ " (MB)")) "buff"
        (tb ++ " (MB)")) = some tc := by
    rw [lookup_dictInsert_ne _ _ _ _ (by decide),
      lookup_dictInsert_ne _ _ _ _ (by decide)]
    exact hlc
  have e3 := mb_step_eval _ "cache" tc hlc2
  have hls3 : List.lookup "swpd"
      (dictInsert
        (dictInsert (dictInsert ls "free" (tf ++ " (MB)")) "buff"
          (tb ++ " (MB)")) "cache" (tc ++ " (MB)")) = some ts2 := by
    rw [lookup_dictInsert_ne _ _ _ _ (by decide),
      lookup_dictInsert_ne _ _ _ _ (by decide),
      lookup_dictInsert_ne _ _ _ _ (by decide)]
    exact hls
  have e4 := mb_step_eval _ "swpd" ts2 hls3
  simp only [apply_ram]
  simp only [memcols, List.foldlM, e1, e2, e3, e4, Option.bind_eq_bind,
    Option.some_bind, Option.pure_def, Option.map_some']

/-! Claim theorems. -/

/-- Claim C10: read_input fails with an uncaught error exactly when the
input contains a blank or whitespace-only line (a line whose token list is
empty, so that indexing its first token raises); the reader is total
precisely under the precondition that every input line has at least one
token. -/
theorem c10_reader_blank_line (lines : List String) :
    read_input lines = none ↔ ∃ l ∈ lines, splitLine l = [] :=
  read_input_go_none_iff lines none []

/-- Claim C7: requesting a column name that is not among the dataset keys
makes the selection step fail with an uncaught error; no result mapping is
produced. -/
theorem c7_unknown_column (dataset : List (String × List Int))
    (cols : List String) (h : String) (hmem : h ∈ cols)
    (hnone : List.lookup h dataset = none) :
    select dataset cols = none := by
  unfold select
  exact select_fold_none dataset cols [] h hmem hnone

theorem c7_unknown_column_witness :
    select [("r", [1, 2])] ["zz"] = none :=
  c7_unknown_column [("r", [1, 2])] ["zz"] "zz" (by decide) (by decide)

/-- Claim C4: with an interval string parsing to k seconds the time axis is
the fixed epoch plus row_index * k seconds for each row; with no interval
the axis value of each row is its raw ordinal index; in particular
interval 60 with 3 rows gives epoch, epoch+60s, epoch+120s. -/
theorem c4_time_axis (n : Nat) (s : String) (k : Int)
    (hs : s ≠ "") (hk : pyInt s = some k) :
    timeaxis_of n (some s) =
      some ((List.range n).map (fun x => vmstat_epoch + (x : Int) * k))
    ∧ timeaxis_of n none = some ((List.range n).map (fun i => (i : Int)))
    ∧ timeaxis_of 3 (some "60") =
      some [vmstat_epoch, vmstat_epoch + 60, vmstat_epoch + 120] := by
  refine ⟨?_, rfl, by decide⟩
  simp only [timeaxis_of]
  rw [if_neg hs, hk]
  rfl

theorem c4_time_axis_witness :
    timeaxis_of 3 (some "60") =
      some ((List.range 3).map (fun x => vmstat_epoch + (x : Int) * 60))
    ∧ timeaxis_of 3 none = some ((List.range 3).map (fun i => (i : Int)))
    ∧ timeaxis_of 3 (some "60") =
      some [vmstat_epoch, vmstat_epoch + 60, vmstat_epoch + 120] :=
  c4_time_axis 3 "60" 60 (by decide) (by decide)

/-- Claim C2 counterexample: the claim says every line after the header
line (other than sentinel lines) becomes a data row, but a second line
whose first token is again the header name `r` is silently dropped by
read_input, so the claim fails on the input with lines `r b` and `r 5`. -/
theorem c2_reader_counterexample : ¬ read_input_claim ["r b", "r 5"] := by
  intro hcl
  have h4 : read_input ["r b", "r 5"] = some (some ["r", "b"], []) := by
    decide
  have hm := hcl 0 (by decide) 1 "r 5" (by decide) (by decide) (by decide)
    (some ["r", "b"]) [] h4
  simp at hm

/-- Claim C2 (amended): read_input skips every line whose first token is
the sentinel `procs`, captures the first line whose first token is `r` as
the header tuple, drops every later line whose first token is `r`, and
returns every remaining line, split into tokens, as a data row in input
order (this also includes data-looking lines that precede the header). -/
theorem c2_reader_contract (lines : List String)
    (hne : ∀ l ∈ lines, splitLine l ≠ []) :
    read_input lines = some (hdr_of lines, data_of lines) := by
  unfold read_input
  rw [read_input_go_spec lines none [] hne]
  rfl

theorem c2_reader_contract_witness :
    read_input ["procs -----memory----", "r b swpd", "2 0 11", "r b swpd",
        "3 1 12"] =
      some (hdr_of ["procs -----memory----", "r b swpd", "2 0 11",
          "r b swpd", "3 1 12"],
        data_of ["procs -----memory----", "r b swpd", "2 0 11", "r b swpd",
          "3 1 12"]) :=
  c2_reader_contract _ (by decide)

/-- Claim C5 counterexample: the string `1x` is not numeric and `x` is not
a recognized size suffix, yet the parser does not take the failure path: it
drops the last character and parses the remainder, yielding 1. -/
theorem c5_ram_counterexample :
    pyInt "1x" = none
    ∧ ('x' : Char) ∉ ['K', 'k', 'M', 'm', 'G', 'g', 'B', 'o']
    ∧ parse_ram "1x" = RamResult.ok 1
    ∧ RamResult.ok 1 ≠ RamResult.usage_exit := by decide

/-- Claim C5 (amended): `2G` parses to 2*1024^3 bytes pre-conversion and
`512M` to 512*1024^2; a non-numeric string whose last character is not a
recognized suffix (K/k/M/m/G/g/B/o) and whose remainder after dropping that
character is also non-numeric takes the failure path, which prints a usage
message and terminates with a non-zero exit status (RamResult.usage_exit). -/
theorem c5_ram_parsing (s : String) (c : Char)
    (hnum : pyInt s = none)
    (hlast : s.data.getLast? = some c)
    (hsuf : c ∉ ['K', 'k', 'M', 'm', 'G', 'g', 'B', 'o'])
    (hpre : pyInt (String.mk s.data.dropLast) = none) :
    parse_ram s = RamResult.usage_exit
    ∧ parse_ram "2G" = RamResult.ok (2 * 1024 * 1024 * 1024)
    ∧ parse_ram "512M" = RamResult.ok (512 * 1024 * 1024) := by
  refine ⟨?_, by decide, by decide⟩
  have hBo : ¬(c = 'B' ∨ c = 'o') := by
    rintro (h | h) <;> exact hsuf (by rw [h]; decide)
  have hK : ¬(c = 'K' ∨ c = 'k') := by
    rintro (h | h) <;> exact hsuf (by rw [h]; decide)
  have hM : ¬(c = 'M' ∨ c = 'm') := by
    rintro (h | h) <;> exact hsuf (by rw [h]; decide)
  have hG : ¬(c = 'G' ∨ c = 'g') := by
    rintro (h | h) <;> exact hsuf (by rw [h]; decide)
  unfold parse_ram
  rw [hnum]
  simp only [hlast]
  rw [if_neg hBo]
  simp only [hlast]
  rw [if_neg hK, if_neg hM, if_neg hG, hpre]
  rfl

theorem c5_ram_parsing_witness :
    parse_ram "abc" = RamResult.usage_exit
    ∧ parse_ram "2G" = RamResult.ok (2 * 1024 * 1024 * 1024)
    ∧ parse_ram "512M" = RamResult.ok (512 * 1024 * 1024) :=
  c5_ram_parsing "abc" 'c' (by decide) (by decide) (by decide) (by decide)

/-- Claim C9: main divides the parsed byte count by 1024 before passing it
on, so a reference-size argument parsing to a byte count b with
0 <= b < 1024 yields quotient 0; doit then treats the zero like an absent
reference, skipping the normalization branch entirely, so the division in
normalize is never reached with a zero denominator. -/
theorem c9_small_reference (s : String) (b : Int)
    (d : List (String × List Int)) (ls : List (String × String))
    (hs : s ≠ "") (hp : parse_ram s = RamResult.ok b)
    (hlo : 0 ≤ b) (hhi : b < 1024) :
    main_ram (some s) = some (some 0)
    ∧ Int.fdiv b 1024 = 0
    ∧ apply_ram d ls (some 0) = apply_ram d ls none := by
  have hq : Int.fdiv b 1024 = 0 := by
    rw [Int.fdiv_eq_ediv _ (by norm_num)]
    exact Int.ediv_eq_zero_of_lt hlo hhi
  refine ⟨?_, hq, rfl⟩
  simp only [main_ram]
  rw [if_neg hs, hp]
  show some (some (if b = 0 then (0 : Int) else Int.fdiv b 1024)) =
    some (some 0)
  by_cases hb : b = 0
  · rw [if_pos hb]
  · rw [if_neg hb, hq]

theorem c9_small_reference_witness :
    main_ram (some "512") = some (some 0)
    ∧ Int.fdiv 512 1024 = 0
    ∧ apply_ram [("free", [7])] HUMAN_HEADERS (some 0) =
        apply_ram [("free", [7])] HUMAN_HEADERS none :=
  c9_small_reference "512" 512 [("free", [7])] HUMAN_HEADERS (by decide)
    (by decide) (by decide) (by decide)

/-- Claim C6: when every requested column name is among the dataset keys,
selection succeeds, each requested name is present in the result bound to
the unmodified value sequence from the unfiltered mapping, every name that
was not requested is absent from the result, and an absent or empty column
list falls back to selecting every header column. -/
theorem c6_selector (dataset : List (String × List Int)) (cols : List String)
    (h1 h2 : String) (hs : List String)
    (hsub : ∀ h ∈ cols, (List.lookup h dataset).isSome)
    (hin : h1 ∈ cols) (hnotin : h2 ∉ cols) :
    (select dataset cols).isSome
    ∧ (select dataset cols).bind (List.lookup h1) = List.lookup h1 dataset
    ∧ (select dataset cols).bind (List.lookup h2) = none
    ∧ effective_cols none hs = hs
    ∧ effective_cols (some []) hs = hs := by
  obtain ⟨out, hsel, hspec⟩ := select_fold_spec dataset cols [] hsub
  have hsel2 : select dataset cols = some out := hsel
  refine ⟨by rw [hsel2]; rfl, ?_, ?_, rfl, rfl⟩
  · rw [hsel2, Option.some_bind, hspec h1, if_pos hin]
  · rw [hsel2, Option.some_bind, hspec h2, if_neg hnotin]
    rfl

theorem c6_selector_witness :
    (select [("r", [1, 2]), ("b", [3, 4]), ("swpd", [0, 5])]
        ["r", "b"]).isSome
    ∧ (select [("r", [1, 2]), ("b", [3, 4]), ("swpd", [0, 5])]
        ["r", "b"]).bind (List.lookup "r") =
      List.lookup "r" [("r", [1, 2]), ("b", [3, 4]), ("swpd", [0, 5])]
    ∧ (select [("r", [1, 2]), ("b", [3, 4]), ("swpd", [0, 5])]
        ["r", "b"]).bind (List.lookup "swpd") = none
    ∧ effective_cols none ["r", "b", "swpd"] = ["r", "b", "swpd"]
    ∧ effective_cols (some []) ["r", "b", "swpd"] = ["r", "b", "swpd"] :=
  c6_selector [("r", [1, 2]), ("b", [3, 4]), ("swpd", [0, 5])] ["r", "b"]
    "r" "swpd" ["r", "b", "swpd"] (by decide) (by decide) (by decide)

/-- Claim C3: for a duplicate-free header of k names and data rows of
matching width whose tokens all parse as integers, the transformer
succeeds and produces exactly the positional columns described by the
specification (for position i, the parsed token at position i of each row
in order); with zero data rows it does not fail and every column is the
empty sequence. -/
theorem c3_column_materialization (headers : List String)
    (data : List (List String)) (hnd : headers.Nodup)
    (hlen : ∀ row ∈ data, row.length = headers.length)
    (hnum : ∀ row ∈ data, ∀ t ∈ row, (pyInt t).isSome) :
    mkDataset headers data = columns_spec headers data
    ∧ (mkDataset headers data).isSome
    ∧ mkDataset headers [] =
      some (headers.map (fun h => (h, ([] : List Int)))) := by
  have heq := mkDataset_eq_columns_spec headers data hnd
  refine ⟨heq, ?_, ?_⟩
  · rw [heq]
    exact columns_spec_isSome headers data hlen hnum
  · rw [mkDataset_eq_columns_spec headers [] hnd]
    unfold columns_spec
    rw [mapM_congr
      (fun p : Nat × String =>
        (column ([] : List (List String)) p.1).map (fun c => (p.2, c)))
      (fun p : Nat × String => some (p.2, ([] : List Int)))
      headers.enum (fun p _ => rfl)]
    rw [mapM_some_map]
    rw [show (fun p : Nat × String => (p.2, ([] : List Int))) =
      ((fun h => (h, ([] : List Int))) ∘ Prod.snd) from rfl]
    rw [← List.map_map, List.enum_map_snd]

theorem c3_column_materialization_witness :
    mkDataset
        ["r", "b", "swpd", "free", "buff", "cache", "si", "so", "bi", "bo",
          "in", "cs", "us", "sy", "id", "wa", "st"]
        [["2", "0", "0", "5075832", "29076", "6839980", "0", "0", "33",
          "873", "2669", "5057", "5", "8", "83", "4", "0"],
         ["3", "1", "0", "5075000", "29076", "6840000", "0", "0", "35",
          "880", "2700", "5100", "6", "8", "82", "4", "0"]] =
      columns_spec
        ["r", "b", "swpd", "free", "buff", "cache", "si", "so", "bi", "bo",
          "in", "cs", "us", "sy", "id", "wa", "st"]
        [["2", "0", "0", "5075832", "29076", "6839980", "0", "0", "33",
          "873", "2669", "5057", "5", "8", "83", "4", "0"],
         ["3", "1", "0", "5075000", "29076", "6840000", "0", "0", "35",
          "880", "2700", "5100", "6", "8", "82", "4", "0"]]
    ∧ (mkDataset
        ["r", "b", "swpd", "free", "buff", "cache", "si", "so", "bi", "bo",
          "in", "cs", "us", "sy", "id", "wa", "st"]
        [["2", "0", "0", "5075832", "29076", "6839980", "0", "0", "33",
          "873", "2669", "5057", "5", "8", "83", "4", "0"],
         ["3", "1", "0", "5075000", "29076", "6840000", "0", "0", "35",
          "880", "2700", "5100", "6", "8", "82", "4", "0"]]).isSome
    ∧ mkDataset
        ["r", "b", "swpd", "free", "buff", "cache", "si", "so", "bi", "bo",
          "in", "cs", "us", "sy", "id", "wa", "st"] [] =
      some (["r", "b", "swpd", "free", "buff", "cache", "si", "so", "bi",
          "bo", "in", "cs", "us", "sy", "id", "wa", "st"].map
        (fun h => (h, ([] : List Int)))) :=
  c3_column_materialization
    ["r", "b", "swpd", "free", "buff", "cache", "si", "so", "bi", "bo",
      "in", "cs", "us", "sy", "id", "wa", "st"]
    [["2", "0", "0", "5075832", "29076", "6839980", "0", "0", "33", "873",
      "2669", "5057", "5", "8", "83", "4", "0"],
     ["3", "1", "0", "5075000", "29076", "6840000", "0", "0", "35", "880",
      "2700", "5100", "6", "8", "82", "4", "0"]]
    (by decide) (by decide) (by decide)

/-- Claim C1: with a reference size R > 0 supplied, every raw value V of
the four memory-family columns (free, buff, cache, swpd) is replaced by
V*100/R (Python 2 floor division, the division of the source language);
no clamping to the interval 0..100 occurs, so a normalized value can
exceed 100 and the normalized values of one row can sum to more or to
less than 100. -/
theorem c1_normalization (d : List (String × List Int))
    (ls : List (String × String)) (R : Int)
    (cf cb cc cs2 : List Int) (tf tb tc ts2 : String)
    (hR : 0 < R)
    (hdf : List.lookup "free" d = some cf)
    (hdb : List.lookup "buff" d = some cb)
    (hdc : List.lookup "cache" d = some cc)
    (hds : List.lookup "swpd" d = some cs2)
    (hlf : List.lookup "free" ls = some tf)
    (hlb : List.lookup "buff" ls = some tb)
    (hlc : List.lookup "cache" ls = some tc)
    (hls : List.lookup "swpd" ls = some ts2) :
    (apply_ram d ls (some R)).bind (fun st => List.lookup "free" st.1) =
      some (cf.map (fun v => Int.fdiv (v * 100) R))
    ∧ (apply_ram d ls (some R)).bind (fun st => List.lookup "buff" st.1) =
      some (cb.map (fun v => Int.fdiv (v * 100) R))
    ∧ (apply_ram d ls (some R)).bind (fun st => List.lookup "cache" st.1) =
      some (cc.map (fun v => Int.fdiv (v * 100) R))
    ∧ (apply_ram d ls (some R)).bind (fun st => List.lookup "swpd" st.1) =
      some (cs2.map (fun v => Int.fdiv (v * 100) R))
    ∧ normalize [200] 100 = [200]
    ∧ (normalize [30, 30, 30, 30] 100).sum = 120
    ∧ (normalize [10, 10, 10, 10] 100).sum = 40 := by
  have happ := apply_ram_pos_eval d ls R cf cb cc cs2 tf tb tc ts2 hR.ne'
    hdf hdb hdc hds hlf hlb hlc hls
  refine ⟨?_, ?_, ?_, ?_, by decide, by decide, by decide⟩
  · rw [happ, Option.some_bind]
    rw [lookup_dictInsert_ne _ _ _ _ (by decide),
      lookup_dictInsert_ne _ _ _ _ (by decide),
      lookup_dictInsert_ne _ _ _ _ (by decide),
      lookup_dictInsert_self]
    rfl
  · rw [happ, Option.some_bind]
    rw [lookup_dictInsert_ne _ _ _ _ (by decide),
      lookup_dictInsert_ne _ _ _ _ (by decide),
      lookup_dictInsert_self]
    rfl
  · rw [happ, Option.some_bind]
    rw [lookup_dictInsert_ne _ _ _ _ (by decide),
      lookup_dictInsert_self]
    rfl
  · rw [happ, Option.some_bind, lookup_dictInsert_self]
    rfl

theorem c1_normalization_witness :
    (apply_ram [("free", [2048]), ("buff", [1024]), ("cache", [512]),
        ("swpd", [0])] HUMAN_HEADERS (some 1024)).bind
      (fun st => List.lookup "free" st.1) =
      some ([2048].map (fun v => Int.fdiv (v * 100) 1024))
    ∧ (apply_ram [("free", [2048]), ("buff", [1024]), ("cache", [512]),
        ("swpd", [0])] HUMAN_HEADERS (some 1024)).bind
      (fun st => List.lookup "buff" st.1) =
      some ([1024].map (fun v => Int.fdiv (v * 100) 1024))
    ∧ (apply_ram [("free", [2048]), ("buff", [1024]), ("cache", [512]),
        ("swpd", [0])] HUMAN_HEADERS (some 1024)).bind
      (fun st => List.lookup "cache" st.1) =
      some ([512].map (fun v => Int.fdiv (v * 100) 1024))
    ∧ (apply_ram [("free", [2048]), ("buff", [1024]), ("cache", [512]),
        ("swpd", [0])] HUMAN_HEADERS (some 1024)).bind
      (fun st => List.lookup "swpd" st.1) =
      some ([0].map (fun v => Int.fdiv (v * 100) 1024))
    ∧ normalize [200] 100 = [200]
    ∧ (normalize [30, 30, 30, 30] 100).sum = 120
    ∧ (normalize [10, 10, 10, 10] 100).sum = 40 :=
  c1_normalization [("free", [2048]), ("buff", [1024]), ("cache", [512]),
      ("swpd", [0])] HUMAN_HEADERS 1024 [2048] [1024] [512] [0]
    "Free memory" "I/O Buffers" "FS cache" "Swapped memory"
    (by decide) (by decide) (by decide) (by decide) (by decide)
    (by decide) (by decide) (by decide) (by decide)

/-- Claim C8: a column outside the fixed set free/buff/cache/swpd keeps
its raw integer values whether a reference size is supplied or not; when
the reference size is absent the whole dataset is returned unchanged and
only the label text of the four memory columns gains the absolute-unit
suffix. -/
theorem c8_frame (d : List (String × List Int))
    (ls : List (String × String)) (R : Int)
    (cf cb cc cs2 : List Int) (tf tb tc ts2 : String) (h : String)
    (hRnz : R ≠ 0)
    (hdf : List.lookup "free" d = some cf)
    (hdb : List.lookup "buff" d = some cb)
    (hdc : List.lookup "cache" d = some cc)
    (hds : List.lookup "swpd" d = some cs2)
    (hlf : List.lookup "free" ls = some tf)
    (hlb : List.lookup "buff" ls = some tb)
    (hlc : List.lookup "cache" ls = some tc)
    (hls : List.lookup "swpd" ls = some ts2)
    (hout : h ∉ memcols) :
    (apply_ram d ls (some R)).bind (fun st => List.lookup h st.1) =
      List.lookup h d
    ∧ (apply_ram d ls (some R)).isSome
    ∧ (apply_ram d ls none).map Prod.fst = some d
    ∧ (apply_ram d ls none).bind (fun st => List.lookup "free" st.2) =
      some (tf ++ " (MB)")
    ∧ (apply_ram d ls none).bind (fun st => List.lookup "buff" st.2) =
      some (tb ++ " (MB)")
    ∧ (apply_ram d ls none).bind (fun st => List.lookup "cache" st.2) =
      some (tc ++ " (MB)")
    ∧ (apply_ram d ls none).bind (fun st => List.lookup "swpd" st.2) =
      some (ts2 ++ " (MB)") := by
  have hnf : h ≠ "free" := fun he => hout (by rw [he]; decide)
  have hnb : h ≠ "buff" := fun he => hout (by rw [he]; decide)
  have hnc : h ≠ "cache" := fun he => hout (by rw [he]; decide)
  have hns : h ≠ "swpd" := fun he => hout (by rw [he]; decide)
  have happ := apply_ram_pos_eval d ls R cf cb cc cs2 tf tb tc ts2 hRnz
    hdf hdb hdc hds hlf hlb hlc hls
  have hmb := apply_ram_mb_eval d ls tf tb tc ts2 hlf hlb hlc hls
  refine ⟨?_, ?_, ?_, ?_, ?_, ?_, ?_⟩
  · rw [happ, Option.some_bind]
    rw [lookup_dictInsert_ne _ _ _ _ hns, lookup_dictInsert_ne _ _ _ _ hnc,
      lookup_dictInsert_ne _ _ _ _ hnb, lookup_dictInsert_ne _ _ _ _ hnf]
  · rw [happ]; rfl
  · rw [hmb]; rfl
  · rw [hmb, Option.some_bind]
    rw [lookup_dictInsert_ne _ _ _ _ (by decide),
      lookup_dictInsert_ne _ _ _ _ (by decide),
      lookup_dictInsert_ne _ _ _ _ (by decide),
      lookup_dictInsert_self]
  · rw [hmb, Option.some_bind]
    rw [lookup_dictInsert_ne _ _ _ _ (by decide),
      lookup_dictInsert_ne _ _ _ _ (by decide),
      lookup_dictInsert_self]
  · rw [hmb, Option.some_bind]
    rw [lookup_dictInsert_ne _ _ _ _ (by decide),
      lookup_dictInsert_self]
  · rw [hmb, Option.some_bind, lookup_dictInsert_self]

theorem c8_frame_witness :
    (apply_ram [("si", [3, 4]), ("free", [2048]), ("buff", [1024]),
        ("cache", [512]), ("swpd", [0])] HUMAN_HEADERS (some 1024)).bind
      (fun st => List.lookup "si" st.1) =
      List.lookup "si" [("si", [3, 4]), ("free", [2048]), ("buff", [1024]),
        ("cache", [512]), ("swpd", [0])]
    ∧ (apply_ram [("si", [3, 4]), ("free", [2048]), ("buff", [1024]),
        ("cache", [512]), ("swpd", [0])] HUMAN_HEADERS (some 1024)).isSome
    ∧ (apply_ram [("si", [3, 4]), ("free", [2048]), ("buff", [1024]),
        ("cache", [512]), ("swpd", [0])] HUMAN_HEADERS none).map Prod.fst =
      some [("si", [3, 4]), ("free", [2048]), ("buff", [1024]),
        ("cache", [512]), ("swpd", [0])]
    ∧ (apply_ram [("si", [3, 4]), ("free", [2048]), ("buff", [1024]),
        ("cache", [512]), ("swpd", [0])] HUMAN_HEADERS none).bind
      (fun st => List.lookup "free" st.2) = some ("Free memory" ++ " (MB)")
    ∧ (apply_ram [("si", [3, 4]), ("free", [2048]), ("buff", [1024]),
        ("cache", [512]), ("swpd", [0])] HUMAN_HEADERS none).bind
      (fun st => List.lookup "buff" st.2) = some ("I/O Buffers" ++ " (MB)")
    ∧ (apply_ram [("si", [3, 4]), ("free", [2048]), ("buff", [1024]),
        ("cache", [512]), ("swpd", [0])] HUMAN_HEADERS none).bind
      (fun st => List.lookup "cache" st.2) = some ("FS cache" ++ " (MB)")
    ∧ (apply_ram [("si", [3, 4]), ("free", [2048]), ("buff", [1024]),
        ("cache", [512]), ("swpd", [0])] HUMAN_HEADERS none).bind
      (fun st => List.lookup "swpd" st.2) =
      some ("Swapped memory" ++ " (MB)") :=
  c8_frame [("si", [3, 4]), ("free", [2048]), ("buff", [1024]),
      ("cache", [512]), ("swpd", [0])] HUMAN_HEADERS 1024
    [2048] [1024] [512] [0]
    "Free memory" "I/O Buffers" "FS cache" "Swapped memory" "si"
    (by decide) (by decide) (by decide) (by decide) (by decide)
    (by decide) (by decide) (by decide) (by decide) (by decide)

end VmstatGraph
